import Mathlib

/-!
Verification of the `rscam` V4L2 camera-capture library (`src/lib.rs`).

The library is shallowly embedded: the device driver interface (the crate's
`v4l2` marshaling module, which the specification treats as an external
collaborator) is modelled as a record of response oracles, one per ioctl /
mmap primitive that `lib.rs` invokes.  Machine integers (`u32`) are modelled
as `Nat` with an explicit `% 2^32` wherever the source performs arithmetic
that can overflow (this crate predates checked arithmetic in Rust, so `u32`
multiplication wraps).  Rust `Result` values are modelled with `Except`, and
operations whose source can `assert!`/panic return a `PRes` with an
explicit `panic` outcome.
-/

namespace Rscam

/-- Abstract token standing for a `std::io::IoError` value. -/
abbrev IoError := Nat

/-- The `enum Error` taxonomy from `lib.rs`: the library's error taxonomy. -/
inductive Error where
  | Io : IoError → Error
  | BadInterval : Error
  | BadResolution : Error
  | BadFormat : Error
  | BadField : Error
deriving DecidableEq, Repr

/-- The `enum Field` type from `lib.rs` (`#[repr(C)]`, discriminants start at 1). -/
inductive Field where
  | None | Top | Bottom | Interplaced | SeqTB | SeqBT
  | Alternate | InterplacedTB | InterplacedBT
deriving DecidableEq, Repr

/-- The `as u32` value of a `Field`, per the `#[repr(C)]` discriminants. -/
def Field.toNat : Field → Nat
  | .None => 1
  | .Top => 2
  | .Bottom => 3
  | .Interplaced => 4
  | .SeqTB => 5
  | .SeqBT => 6
  | .Alternate => 7
  | .InterplacedTB => 8
  | .InterplacedBT => 9

/-- The `struct Config` input from `lib.rs`: the input to `start`.  The fourcc format
is a byte slice of caller-chosen length (validated inside `tune_format`). -/
structure Config where
  interval : Nat × Nat
  resolution : Nat × Nat
  format : List Nat
  field : Field
  nbuffers : Nat
deriving DecidableEq, Repr

/-- Definition of `Config::default()` from `lib.rs` (`b"YUYV"` is `[0x59, 0x55, 0x59, 0x56]`). -/
def Config.default : Config :=
  { interval := (1, 10)
  , resolution := (640, 480)
  , format := [0x59, 0x55, 0x59, 0x56]
  , field := Field.None
  , nbuffers := 2 }

/-- The `enum State` type from `lib.rs`: the capture-session state machine. -/
inductive State where
  | Idle | Streaming | Aborted
deriving DecidableEq, Repr

/-- The device's reply to the `VIDIOC_S_FMT` negotiation: the (possibly
adjusted) width, height, pixelformat and field written back into the
`v4l2::Format` struct. -/
structure FmtReply where
  width : Nat
  height : Nat
  pixelformat : Nat
  field : Nat
deriving DecidableEq, Repr

/-- Device-interface oracle for the capture-session operations: one response
per primitive of the `v4l2` module that `lib.rs` calls.  Per-index calls
(`QUERYBUF`, `mmap`, `QBUF` during stream-on, `munmap` position during
`free_buffers`) are functions of the index; one-shot calls are constants
(each is issued at most once per operation modelled). -/
structure Dev where
  sfmt : Except IoError FmtReply
  sparm : Except IoError (Nat × Nat)
  reqbufs : Except IoError Unit
  querybuf : Nat → Except IoError Unit
  mmap : Nat → Except IoError (List Nat)
  qbuf : Nat → Except IoError Unit
  streamonIoctl : Except IoError Unit
  streamoffIoctl : Except IoError Unit
  munmap : Nat → Except IoError Unit
  dqbuf : Except IoError (Nat × Nat)

/-- The `struct Camera` record from `lib.rs` (the `fd` is kept for fidelity; mapped
buffer regions are byte lists). -/
structure Camera where
  fd : Int
  state : State
  resolution : Nat × Nat
  format : List Nat
  buffers : List (List Nat)
deriving DecidableEq, Repr

/-- State of `Camera::new`'s freshly constructed session state (the open itself is the
device's business; on success the fields are exactly these). -/
def Camera.fresh (fd : Int) : Camera :=
  { fd := fd, state := State.Idle, resolution := (0, 0)
  , format := [0, 0, 0, 0], buffers := [] }

/-- The `struct Frame` view from `lib.rs`: the dequeued-buffer view handed to the
caller.  `index`/`bytesused` model the `v4l2::Buffer` back-reference kept
for the re-enqueue on drop. -/
structure Frame where
  data : List Nat
  resolution : Nat × Nat
  format : List Nat
  index : Nat
  bytesused : Nat
deriving DecidableEq, Repr

/-- Outcome of an operation that can return `Ok`, return an error, or hit a
failed `assert!`/out-of-bounds panic in the source. -/
inductive PRes (ε α : Type) where
  | ok : α → PRes ε α
  | err : ε → PRes ε α
  | panic : PRes ε α
deriving DecidableEq, Repr

/-- Reduction of a `u32` arithmetic result: this crate targets 2014-era Rust,
where `u32` multiplication wraps modulo `2^32`. -/
def u32 (x : Nat) : Nat := x % 4294967296

/-- Function `FormatInfo::fourcc` from `lib.rs`: little-endian packing of the 4 format
bytes by shifted bitwise or. -/
def fourcc (fmt : List Nat) : Nat :=
  fmt.getD 0 0 ||| (fmt.getD 1 0) <<< 8 ||| (fmt.getD 2 0) <<< 16 ||| (fmt.getD 3 0) <<< 24

/-- Method `Camera::tune_format` from `lib.rs`: length check, `S_FMT` ioctl, then
exact-acceptance checks in the order resolution, pixelformat, field. -/
def Camera.tune_format (dev : Dev) (resol : Nat × Nat) (format : List Nat)
    (field : Field) : Except Error Unit :=
  if format.length ≠ 4 then .error Error.BadFormat
  else
    match dev.sfmt with
    | .error e => .error (Error.Io e)
    | .ok r =>
      if (r.width, r.height) ≠ resol then .error Error.BadResolution
      else if fourcc format ≠ r.pixelformat then .error Error.BadFormat
      else if field.toNat ≠ r.field then .error Error.BadField
      else .ok ()

/-- Method `Camera::tune_stream` from `lib.rs`: `S_PARM` ioctl, then the match on
the wrapped cross products `(returned_num * requested_den,
returned_den * requested_num)`: `BadInterval` when either product is zero or
the two differ. -/
def Camera.tune_stream (dev : Dev) (interval : Nat × Nat) : Except Error Unit :=
  match dev.sparm with
  | .error e => .error (Error.Io e)
  | .ok time =>
    let x := u32 (time.1 * interval.2)
    let y := u32 (time.2 * interval.1)
    if x = 0 ∨ y = 0 then .error Error.BadInterval
    else if x ≠ y then .error Error.BadInterval
    else .ok ()

/-- The `for i in range(0, nbuffers)` loop of `Camera::alloc_buffers`: query
and map each buffer in index order, pushing each mapped region; on a
failure the regions pushed so far stay in the accumulator (the source pushes
into `self.buffers` directly and does not unwind). -/
def allocLoop (dev : Dev) : Nat → Nat → List (List Nat) →
    Except IoError Unit × List (List Nat)
  | 0, _, acc => (.ok (), acc)
  | fuel + 1, i, acc =>
    match dev.querybuf i with
    | .error e => (.error e, acc)
    | .ok _ =>
      match dev.mmap i with
      | .error e => (.error e, acc)
      | .ok region => allocLoop dev fuel (i + 1) (acc ++ [region])

/-- Method `Camera::alloc_buffers` from `lib.rs`: `REQBUFS`, then the mapping loop;
I/O failures are converted to `Error::Io` by the `try!`/`FromError` pair. -/
def Camera.alloc_buffers (dev : Dev) (nbuffers : Nat) (cam : Camera) :
    Except Error Unit × Camera :=
  match dev.reqbufs with
  | .error e => (.error (Error.Io e), cam)
  | .ok _ =>
    match allocLoop dev nbuffers 0 cam.buffers with
    | (.ok _, bufs) => (.ok (), { cam with buffers := bufs })
    | (.error e, bufs) => (.error (Error.Io e), { cam with buffers := bufs })

/-- The `for buffer in self.buffers.iter_mut()` loop of
`Camera::free_buffers`: `munmap` is invoked at every position regardless of
earlier failures, the first failure's error is kept, and the list of
positions at which `munmap` was attempted is returned as an audit log. -/
def munmapAll (dev : Dev) : Nat → Nat → Except IoError Unit × List Nat
  | 0, _ => (.ok (), [])
  | k + 1, i =>
    let r := dev.munmap i
    let rest := munmapAll dev k (i + 1)
    (match r with
     | .error e => .error e
     | .ok _ => rest.1, i :: rest.2)

/-- Method `Camera::free_buffers` from `lib.rs`: best-effort unmapping of every
pool entry, unconditional `clear`, first error returned.  The third
component is the log of `munmap` attempts (one per pool position). -/
def Camera.free_buffers (dev : Dev) (cam : Camera) :
    Except IoError Unit × Camera × List Nat :=
  let r := munmapAll dev cam.buffers.length 0
  (r.1, { cam with buffers := [] }, r.2)

/-- The `QBUF` loop of `Camera::streamon`: enqueue indices `0..n-1`,
stopping at the first failure (`try!`). -/
def qbufAll (dev : Dev) : Nat → Nat → Except IoError Unit
  | 0, _ => .ok ()
  | k + 1, i =>
    match dev.qbuf i with
    | .error e => .error e
    | .ok _ => qbufAll dev k (i + 1)

/-- Method `Camera::streamon` from `lib.rs`: enqueue every pool buffer, then the
`STREAMON` ioctl. -/
def Camera.streamon (dev : Dev) (cam : Camera) : Except IoError Unit :=
  match qbufAll dev cam.buffers.length 0 with
  | .error e => .error e
  | .ok _ => dev.streamonIoctl

/-- Method `Camera::streamoff` from `lib.rs`. -/
def Camera.streamoff (dev : Dev) : Except IoError Unit :=
  dev.streamoffIoctl

/-- Method `Camera::start` from `lib.rs`.  Returns the call's outcome, the session
state after the call, and the log of `munmap` attempts made by the
stream-on failure cleanup (empty on every other path).  The leading
`assert_eq!(self.state, State::Idle)` is the `panic` branch. -/
def Camera.start (dev : Dev) (cfg : Config) (cam : Camera) :
    PRes Error Unit × Camera × List Nat :=
  if cam.state ≠ State.Idle then (.panic, cam, []) else
  match Camera.tune_format dev cfg.resolution cfg.format cfg.field with
  | .error e => (.err e, cam, [])
  | .ok _ =>
    match Camera.tune_stream dev cfg.interval with
    | .error e => (.err e, cam, [])
    | .ok _ =>
      match Camera.alloc_buffers dev cfg.nbuffers cam with
      | (.error e, cam') => (.err e, cam', [])
      | (.ok _, cam') =>
        match Camera.streamon dev cam' with
        | .error e =>
          let f := Camera.free_buffers dev cam'
          (.err (Error.Io e), f.2.1, f.2.2)
        | .ok _ =>
          (.ok (), { cam' with
              resolution := cfg.resolution
            , format := [cfg.format.getD 0 0, cfg.format.getD 1 0,
                         cfg.format.getD 2 0, cfg.format.getD 3 0]
            , state := State.Streaming }, [])

/-- Method `Camera::capture` from `lib.rs`: the `assert_eq!` on Streaming, the
blocking `DQBUF`, the `assert!` that the dequeued index is in range, and the
slice `self.buffers[index][0..bytesused]` (which panics when `bytesused`
exceeds the mapped region's length). -/
def Camera.capture (dev : Dev) (cam : Camera) : PRes IoError Frame :=
  if cam.state ≠ State.Streaming then .panic else
  match dev.dqbuf with
  | .error e => .err e
  | .ok (index, bytesused) =>
    if index < cam.buffers.length then
      let region := cam.buffers.getD index []
      if bytesused ≤ region.length then
        .ok { data := region.take bytesused
            , resolution := cam.resolution
            , format := cam.format
            , index := index
            , bytesused := bytesused }
      else .panic
    else .panic

/-- Method `Camera::stop` from `lib.rs`: `assert_eq!` on Streaming, then
`try!(streamoff)`, `try!(free_buffers)`, and only then the assignment
`self.state = State::Aborted`. -/
def Camera.stop (dev : Dev) (cam : Camera) : PRes IoError Unit × Camera :=
  if cam.state ≠ State.Streaming then (.panic, cam) else
  match Camera.streamoff dev with
  | .error e => (.err e, cam)
  | .ok _ =>
    let f := Camera.free_buffers dev cam
    match f.1 with
    | .error e => (.err e, f.2.1)
    | .ok _ => (.ok (), { f.2.1 with state := State.Aborted })

/-- Model of `impl Drop for Camera` from `lib.rs`: the automatic teardown calls
`stop` (discarding its result) only when still Streaming, then closes the
descriptor; the session record is otherwise untouched. -/
def Camera.dropCleanup (dev : Dev) (cam : Camera) : Camera :=
  if cam.state = State.Streaming then (Camera.stop dev cam).2 else cam

/-- Outcome of one `v4l2::xioctl_valid` enumeration call: a filled-in entry,
an index rejection (`EINVAL`, reported as `Ok(false)` by the marshaling
layer), or any other I/O failure.  The distinction between `invalid` and
`ioerr` is the device-interface boundary the spec describes (the `v4l2`
module itself is outside the embedded source). -/
inductive EnumR (α : Type) where
  | ok : α → EnumR α
  | invalid : EnumR α
  | ioerr : IoError → EnumR α
deriving DecidableEq, Repr

/-- Fields of a `v4l2::FmtDesc` reply that `formats` reads. -/
structure FmtDesc where
  pixelformat : Nat
  description : List Nat
  flags : Nat
deriving DecidableEq, Repr

/-- Fields of a `v4l2::Frmsizeenum` reply that `formats` reads. -/
structure SizeDesc where
  ftype : Nat
  width : Nat
  height : Nat
deriving DecidableEq, Repr

/-- Fields of a `v4l2::Frmivalenum` reply that `formats` reads. -/
structure IvalDesc where
  ftype : Nat
  numerator : Nat
  denominator : Nat
deriving DecidableEq, Repr

/-- V4L2 ABI constant `v4l2::FMT_FLAG_COMPRESSED` (the `v4l2` module is not
part of the embedded source; the value is the kernel ABI's). -/
def FMT_FLAG_COMPRESSED : Nat := 1

/-- V4L2 ABI constant `v4l2::FMT_FLAG_EMULATED`. -/
def FMT_FLAG_EMULATED : Nat := 2

/-- V4L2 ABI constant `v4l2::FRMSIZE_TYPE_DISCRETE`. -/
def FRMSIZE_TYPE_DISCRETE : Nat := 1

/-- V4L2 ABI constant `v4l2::FRMIVAL_TYPE_DISCRET`. -/
def FRMIVAL_TYPE_DISCRET : Nat := 1

/-- The `ModeInfo` record from `lib.rs`: one discrete resolution with its
discrete frame intervals. -/
structure ModeInfo where
  resolution : Nat × Nat
  intervals : List (Nat × Nat)
deriving DecidableEq, Repr

/-- The `FormatInfo` record from `lib.rs`. -/
structure FormatInfo where
  format : List Nat
  description : List Nat
  compressed : Bool
  emulated : Bool
  modes : List ModeInfo
deriving DecidableEq, Repr

/-- Constructor `FormatInfo::new` from `lib.rs`: unpack the fourcc into four
bytes, read the NUL-terminated description buffer, test the two flag bits,
start with no modes. -/
def FormatInfo.new (fourcc : Nat) (desc : List Nat) (flags : Nat) : FormatInfo :=
  { format := [fourcc &&& 0xff, (fourcc >>> 8) &&& 0xff,
               (fourcc >>> 16) &&& 0xff, (fourcc >>> 24) &&& 0xff]
  , description := desc.takeWhile (fun b => b ≠ 0)
  , compressed := flags &&& FMT_FLAG_COMPRESSED ≠ 0
  , emulated := flags &&& FMT_FLAG_EMULATED ≠ 0
  , modes := [] }

/-- Enumeration oracle for `Camera::formats`: the three index-based
enumeration ioctls.  Sizes are keyed by the pixelformat written into the
request struct, intervals by pixelformat and resolution, exactly the fields
`formats` fills in before each query. -/
structure EnumDev where
  enumFmt : Nat → EnumR FmtDesc
  enumSize : Nat → Nat → EnumR SizeDesc
  enumIval : Nat → Nat × Nat → Nat → EnumR IvalDesc

/-- Innermost `formats` loop (`VIDIOC_ENUM_FRAMEINTERVALS`): collect the
discrete intervals in index order, stop at the first index rejection, abort
on any other failure.  `fuel` bounds the iteration count (`none` when
exhausted); the source loop itself has no bound. -/
def ivalLoop (dev : EnumDev) (pf : Nat) (res : Nat × Nat) :
    Nat → Nat → Option (Except IoError (List (Nat × Nat)))
  | 0, _ => none
  | fuel + 1, i =>
    match dev.enumIval pf res i with
    | .invalid => some (.ok [])
    | .ioerr e => some (.error e)
    | .ok iv =>
      match ivalLoop dev pf res fuel (i + 1) with
      | none => none
      | some (.error e) => some (.error e)
      | some (.ok rest) =>
        some (.ok (if iv.ftype = FRMIVAL_TYPE_DISCRET
                   then (iv.numerator, iv.denominator) :: rest else rest))

/-- Middle `formats` loop (`VIDIOC_ENUM_FRAMESIZES`): skip non-discrete
entries (still advancing the index), recurse into the interval loop for each
discrete one, stop at the first index rejection, abort on any other
failure. -/
def sizeLoop (dev : EnumDev) (pf : Nat) (ivalFuel : Nat) :
    Nat → Nat → Option (Except IoError (List ModeInfo))
  | 0, _ => none
  | fuel + 1, i =>
    match dev.enumSize pf i with
    | .invalid => some (.ok [])
    | .ioerr e => some (.error e)
    | .ok s =>
      if s.ftype ≠ FRMSIZE_TYPE_DISCRETE then
        sizeLoop dev pf ivalFuel fuel (i + 1)
      else
        match ivalLoop dev pf (s.width, s.height) ivalFuel 0 with
        | none => none
        | some (.error e) => some (.error e)
        | some (.ok ivs) =>
          match sizeLoop dev pf ivalFuel fuel (i + 1) with
          | none => none
          | some (.error e) => some (.error e)
          | some (.ok rest) =>
            some (.ok ({ resolution := (s.width, s.height)
                       , intervals := ivs } :: rest))

/-- Outer `formats` loop (`VIDIOC_ENUM_FMT`): build each `FormatInfo` with
the modes collected by the size loop, stop at the first index rejection,
abort on any other failure. -/
def fmtLoop (dev : EnumDev) (szFuel ivalFuel : Nat) :
    Nat → Nat → Option (Except IoError (List FormatInfo))
  | 0, _ => none
  | fuel + 1, i =>
    match dev.enumFmt i with
    | .invalid => some (.ok [])
    | .ioerr e => some (.error e)
    | .ok f =>
      match sizeLoop dev f.pixelformat ivalFuel szFuel 0 with
      | none => none
      | some (.error e) => some (.error e)
      | some (.ok ms) =>
        match fmtLoop dev szFuel ivalFuel fuel (i + 1) with
        | none => none
        | some (.error e) => some (.error e)
        | some (.ok rest) =>
          some (.ok ({ FormatInfo.new f.pixelformat f.description f.flags
                         with modes := ms } :: rest))

/-- Method `Camera::formats` from `lib.rs`: the nested enumeration.  It
takes `&self` and only reads the descriptor, so the session record is not
consulted beyond the handle and cannot be mutated; `fuel` bounds each of the
three loops. -/
def Camera.formats (_cam : Camera) (dev : EnumDev) (fuel : Nat) :
    Option (Except IoError (List FormatInfo)) :=
  fmtLoop dev fuel fuel fuel 0

/-- Truth of an enumeration reply being an entry (used to split a response
list into its processed prefix and its terminator). -/
def EnumR.isOk {α : Type} : EnumR α → Bool
  | .ok _ => true
  | _ => false

/-- Payloads of the leading `ok` replies of a response list: the entries the
enumeration loop actually processes. -/
def okPrefix {α : Type} (l : List (EnumR α)) : List α :=
  (l.takeWhile EnumR.isOk).filterMap fun r =>
    match r with
    | .ok a => some a
    | _ => none

/-- First non-`ok` reply of a response list, the end of the list counting as
an index rejection: what the enumeration loop sees when it stops. -/
def stopper {α : Type} (l : List (EnumR α)) : EnumR α :=
  match l.dropWhile EnumR.isOk with
  | [] => .invalid
  | x :: _ => x

/-- Reference behavior of the interval loop on a response list: error of the
terminator if it is an I/O failure, otherwise the discrete entries of the
processed prefix in order. -/
def ivalSpec (l : List (EnumR IvalDesc)) : Except IoError (List (Nat × Nat)) :=
  match stopper l with
  | .ioerr e => .error e
  | _ => .ok (((okPrefix l).filter fun iv => iv.ftype = FRMIVAL_TYPE_DISCRET).map
               fun iv => (iv.numerator, iv.denominator))

/-- Reference collection of the modes of a list of discrete size entries:
each entry's intervals come from the device's interval-response list for its
resolution, and the first interval-level I/O failure aborts. -/
def modesOf (ivL : Nat → Nat × Nat → List (EnumR IvalDesc)) (pf : Nat) :
    List SizeDesc → Except IoError (List ModeInfo)
  | [] => .ok []
  | s :: rest =>
    match ivalSpec (ivL pf (s.width, s.height)) with
    | .error e => .error e
    | .ok ivs =>
      match modesOf ivL pf rest with
      | .error e => .error e
      | .ok ms => .ok ({ resolution := (s.width, s.height), intervals := ivs } :: ms)

/-- Reference behavior of the size loop on a response list: collect the
modes of the discrete entries of the processed prefix (interval failures
abort first), then fail if the terminator was an I/O failure. -/
def sizeSpec (ivL : Nat → Nat × Nat → List (EnumR IvalDesc)) (pf : Nat)
    (l : List (EnumR SizeDesc)) : Except IoError (List ModeInfo) :=
  match modesOf ivL pf ((okPrefix l).filter fun s => s.ftype = FRMSIZE_TYPE_DISCRETE) with
  | .error e => .error e
  | .ok ms =>
    match stopper l with
    | .ioerr e => .error e
    | _ => .ok ms

/-- Reference construction of the catalog for a list of format entries. -/
def catalogOf (szL : Nat → List (EnumR SizeDesc))
    (ivL : Nat → Nat × Nat → List (EnumR IvalDesc)) :
    List FmtDesc → Except IoError (List FormatInfo)
  | [] => .ok []
  | f :: rest =>
    match sizeSpec ivL f.pixelformat (szL f.pixelformat) with
    | .error e => .error e
    | .ok ms =>
      match catalogOf szL ivL rest with
      | .error e => .error e
      | .ok cat =>
        .ok ({ FormatInfo.new f.pixelformat f.description f.flags
                 with modes := ms } :: cat)

/-- Reference behavior of the whole enumeration on response lists. -/
def fmtSpec (szL : Nat → List (EnumR SizeDesc))
    (ivL : Nat → Nat × Nat → List (EnumR IvalDesc))
    (l : List (EnumR FmtDesc)) : Except IoError (List FormatInfo) :=
  match catalogOf szL ivL (okPrefix l) with
  | .error e => .error e
  | .ok cat =>
    match stopper l with
    | .ioerr e => .error e
    | _ => .ok cat

/-- Enumeration oracle defined by response lists: the reply to index `i` is
the list's `i`-th element, and every index past the end is rejected as
invalid. -/
def devOfLists (fmtL : List (EnumR FmtDesc)) (szL : Nat → List (EnumR SizeDesc))
    (ivL : Nat → Nat × Nat → List (EnumR IvalDesc)) : EnumDev :=
  { enumFmt := fun i => (fmtL.get? i).getD .invalid
  , enumSize := fun pf i => ((szL pf).get? i).getD .invalid
  , enumIval := fun pf res i => ((ivL pf res).get? i).getD .invalid }

/-- Dropping at a position that holds `x` peels exactly `x`. -/
theorem drop_of_get? {α : Type} (l : List α) (n : Nat) (x : α)
    (h : l.get? n = some x) : l.drop n = x :: l.drop (n + 1) := by
  have hn : n < l.length := by
    by_contra hc
    push_neg at hc
    rw [List.get?_eq_none.mpr hc] at h
    exact Option.noConfusion h
  rw [List.drop_eq_getElem_cons hn]
  have hx : l[n]? = some x := by
    rw [← List.get?_eq_getElem?]
    exact h
  rw [List.getElem?_eq_getElem hn] at hx
  rw [Option.some.injEq] at hx
  rw [hx]

theorem okPrefix_nil {α : Type} : okPrefix ([] : List (EnumR α)) = [] := rfl

theorem okPrefix_cons_ok {α : Type} (a : α) (t : List (EnumR α)) :
    okPrefix (.ok a :: t) = a :: okPrefix t := by
  simp [okPrefix, EnumR.isOk, List.takeWhile_cons]

theorem okPrefix_cons_invalid {α : Type} (t : List (EnumR α)) :
    okPrefix (.invalid :: t) = [] := by
  simp [okPrefix, EnumR.isOk, List.takeWhile_cons]

theorem okPrefix_cons_ioerr {α : Type} (e : IoError) (t : List (EnumR α)) :
    okPrefix (.ioerr e :: t) = [] := by
  simp [okPrefix, EnumR.isOk, List.takeWhile_cons]

theorem stopper_nil {α : Type} : stopper ([] : List (EnumR α)) = .invalid := rfl

theorem stopper_cons_ok {α : Type} (a : α) (t : List (EnumR α)) :
    stopper (.ok a :: t) = stopper t := by
  simp [stopper, EnumR.isOk, List.dropWhile_cons]

theorem stopper_cons_invalid {α : Type} (t : List (EnumR α)) :
    stopper (.invalid :: t) = .invalid := by
  simp [stopper, EnumR.isOk, List.dropWhile_cons]

theorem stopper_cons_ioerr {α : Type} (e : IoError) (t : List (EnumR α)) :
    stopper (.ioerr e :: t) = .ioerr e := by
  simp [stopper, EnumR.isOk, List.dropWhile_cons]

/-- Fuel elimination for the interval loop over a list-defined oracle:
starting at index `i` with enough fuel it computes the reference behavior on
the remaining responses. -/
theorem ivalLoop_spec (fmtL : List (EnumR FmtDesc)) (szL : Nat → List (EnumR SizeDesc))
    (ivL : Nat → Nat × Nat → List (EnumR IvalDesc)) (pf : Nat) (res : Nat × Nat) :
    ∀ fuel i, (ivL pf res).length - i < fuel →
    ivalLoop (devOfLists fmtL szL ivL) pf res fuel i =
      some (ivalSpec ((ivL pf res).drop i)) := by
  intro fuel
  induction fuel with
  | zero => intro i h; omega
  | succ fuel ih =>
    intro i h
    rcases hg : (ivL pf res).get? i with _ | r
    · have hdev : (devOfLists fmtL szL ivL).enumIval pf res i =
          ((ivL pf res).get? i).getD EnumR.invalid := rfl
      rw [hg] at hdev
      have hdrop : (ivL pf res).drop i = [] :=
        List.drop_eq_nil_of_le (List.get?_eq_none.mp hg)
      rw [hdrop]
      simp only [ivalLoop, hdev, Option.getD_none]
      rfl
    · have hdev : (devOfLists fmtL szL ivL).enumIval pf res i =
          ((ivL pf res).get? i).getD EnumR.invalid := rfl
      rw [hg] at hdev
      have hdrop := drop_of_get? _ _ _ hg
      rw [hdrop]
      cases r with
      | invalid =>
        simp only [ivalLoop, hdev, Option.getD_some]
        unfold ivalSpec
        rw [stopper_cons_invalid, okPrefix_cons_invalid]
        rfl
      | ioerr e =>
        simp only [ivalLoop, hdev, Option.getD_some]
        unfold ivalSpec
        rw [stopper_cons_ioerr]
      | ok iv =>
        have hi : i < (ivL pf res).length := by
          by_contra hc
          push_neg at hc
          rw [List.get?_eq_none.mpr hc] at hg
          exact Option.noConfusion hg
        have ihx := ih (i + 1) (by omega)
        simp only [ivalLoop, hdev, Option.getD_some, ihx]
        unfold ivalSpec
        rw [stopper_cons_ok, okPrefix_cons_ok]
        cases hs : stopper ((ivL pf res).drop (i + 1)) with
        | ioerr e => simp
        | invalid =>
          by_cases hd : iv.ftype = FRMIVAL_TYPE_DISCRET <;>
            simp [List.filter_cons, hd]
        | ok a =>
          by_cases hd : iv.ftype = FRMIVAL_TYPE_DISCRET <;>
            simp [List.filter_cons, hd]

/-- Unfolding rule for `modesOf` on a leading size entry. -/
theorem modesOf_cons (ivL : Nat → Nat × Nat → List (EnumR IvalDesc)) (pf : Nat)
    (s : SizeDesc) (rest : List SizeDesc) :
    modesOf ivL pf (s :: rest) =
      (match ivalSpec (ivL pf (s.width, s.height)) with
       | .error e => .error e
       | .ok ivs =>
         match modesOf ivL pf rest with
         | .error e => .error e
         | .ok ms => .ok ({ resolution := (s.width, s.height)
                          , intervals := ivs } :: ms)) := rfl

/-- Unfolding rule: a non-discrete size entry contributes nothing. -/
theorem sizeSpec_cons_skip (ivL : Nat → Nat × Nat → List (EnumR IvalDesc)) (pf : Nat)
    (s : SizeDesc) (t : List (EnumR SizeDesc)) (hd : s.ftype ≠ FRMSIZE_TYPE_DISCRETE) :
    sizeSpec ivL pf (.ok s :: t) = sizeSpec ivL pf t := by
  unfold sizeSpec
  rw [stopper_cons_ok, okPrefix_cons_ok, List.filter_cons]
  simp [hd]

/-- Unfolding rule: a discrete size entry contributes a mode built from its
interval responses, interval failures aborting first. -/
theorem sizeSpec_cons_discrete (ivL : Nat → Nat × Nat → List (EnumR IvalDesc)) (pf : Nat)
    (s : SizeDesc) (t : List (EnumR SizeDesc)) (hd : s.ftype = FRMSIZE_TYPE_DISCRETE) :
    sizeSpec ivL pf (.ok s :: t) =
      (match ivalSpec (ivL pf (s.width, s.height)) with
       | .error e => .error e
       | .ok ivs =>
         match sizeSpec ivL pf t with
         | .error e => .error e
         | .ok ms => .ok ({ resolution := (s.width, s.height)
                          , intervals := ivs } :: ms)) := by
  have hdec : (decide (s.ftype = FRMSIZE_TYPE_DISCRETE)) = true := by
    rw [hd]
    exact decide_eq_true rfl
  unfold sizeSpec
  rw [stopper_cons_ok, okPrefix_cons_ok, List.filter_cons, hdec]
  simp only [if_true]
  rw [modesOf_cons]
  cases hiv : ivalSpec (ivL pf (s.width, s.height)) with
  | error e => rfl
  | ok ivs =>
    cases hms : modesOf ivL pf
        ((okPrefix t).filter fun s => s.ftype = FRMSIZE_TYPE_DISCRETE) with
    | error e => rfl
    | ok ms => cases stopper t <;> rfl

/-- Unfolding rule for `catalogOf` on a leading format entry. -/
theorem catalogOf_cons (szL : Nat → List (EnumR SizeDesc))
    (ivL : Nat → Nat × Nat → List (EnumR IvalDesc)) (f : FmtDesc)
    (rest : List FmtDesc) :
    catalogOf szL ivL (f :: rest) =
      (match sizeSpec ivL f.pixelformat (szL f.pixelformat) with
       | .error e => .error e
       | .ok ms =>
         match catalogOf szL ivL rest with
         | .error e => .error e
         | .ok cat => .ok ({ FormatInfo.new f.pixelformat f.description f.flags
                               with modes := ms } :: cat)) := rfl

/-- Unfolding rule for the catalog of a leading format entry. -/
theorem fmtSpec_cons_ok (szL : Nat → List (EnumR SizeDesc))
    (ivL : Nat → Nat × Nat → List (EnumR IvalDesc)) (f : FmtDesc)
    (t : List (EnumR FmtDesc)) :
    fmtSpec szL ivL (.ok f :: t) =
      (match sizeSpec ivL f.pixelformat (szL f.pixelformat) with
       | .error e => .error e
       | .ok ms =>
         match fmtSpec szL ivL t with
         | .error e => .error e
         | .ok cat => .ok ({ FormatInfo.new f.pixelformat f.description f.flags
                               with modes := ms } :: cat)) := by
  unfold fmtSpec
  rw [stopper_cons_ok, okPrefix_cons_ok, catalogOf_cons]
  cases hsz : sizeSpec ivL f.pixelformat (szL f.pixelformat) with
  | error e => rfl
  | ok ms =>
    cases hcat : catalogOf szL ivL (okPrefix t) with
    | error e => rfl
    | ok cat => cases stopper t <;> rfl

/-- Fuel elimination for the size loop over a list-defined oracle. -/
theorem sizeLoop_spec (fmtL : List (EnumR FmtDesc)) (szL : Nat → List (EnumR SizeDesc))
    (ivL : Nat → Nat × Nat → List (EnumR IvalDesc)) (pf : Nat) (ivalFuel : Nat)
    (hiv : ∀ res, (ivL pf res).length < ivalFuel) :
    ∀ fuel i, (szL pf).length - i < fuel →
    sizeLoop (devOfLists fmtL szL ivL) pf ivalFuel fuel i =
      some (sizeSpec ivL pf ((szL pf).drop i)) := by
  intro fuel
  induction fuel with
  | zero => intro i h; omega
  | succ fuel ih =>
    intro i h
    have hdev : (devOfLists fmtL szL ivL).enumSize pf i =
        ((szL pf).get? i).getD EnumR.invalid := rfl
    rcases hg : (szL pf).get? i with _ | r
    · rw [hg] at hdev
      have hdrop : (szL pf).drop i = [] :=
        List.drop_eq_nil_of_le (List.get?_eq_none.mp hg)
      rw [hdrop]
      simp only [sizeLoop, hdev, Option.getD_none]
      rfl
    · rw [hg] at hdev
      have hdrop := drop_of_get? _ _ _ hg
      rw [hdrop]
      cases r with
      | invalid =>
        simp only [sizeLoop, hdev, Option.getD_some]
        unfold sizeSpec
        rw [stopper_cons_invalid, okPrefix_cons_invalid]
        rfl
      | ioerr e =>
        simp only [sizeLoop, hdev, Option.getD_some]
        unfold sizeSpec
        rw [stopper_cons_ioerr, okPrefix_cons_ioerr]
        rfl
      | ok s =>
        have hi : i < (szL pf).length := by
          by_contra hc
          push_neg at hc
          rw [List.get?_eq_none.mpr hc] at hg
          exact Option.noConfusion hg
        have ihx := ih (i + 1) (by omega)
        have hivx := ivalLoop_spec fmtL szL ivL pf (s.width, s.height) ivalFuel 0
          (by have := hiv (s.width, s.height); omega)
        rw [List.drop_zero] at hivx
        by_cases hd : s.ftype = FRMSIZE_TYPE_DISCRETE
        · rw [sizeSpec_cons_discrete ivL pf s _ hd]
          simp only [sizeLoop, hdev, Option.getD_some, hd, ne_eq, not_true_eq_false,
            if_false, hivx, ihx]
          cases hiv1 : ivalSpec (ivL pf (s.width, s.height)) with
          | error e => rfl
          | ok ivs =>
            cases hsz : sizeSpec ivL pf ((szL pf).drop (i + 1)) <;> rfl
        · rw [sizeSpec_cons_skip ivL pf s _ hd]
          simp only [sizeLoop, hdev, Option.getD_some, ne_eq, hd, not_false_eq_true,
            if_true, ihx]

/-- Fuel elimination for the outer format loop over a list-defined oracle. -/
theorem fmtLoop_spec (fmtL : List (EnumR FmtDesc)) (szL : Nat → List (EnumR SizeDesc))
    (ivL : Nat → Nat × Nat → List (EnumR IvalDesc)) (szFuel ivalFuel : Nat)
    (hsz : ∀ pf, (szL pf).length < szFuel)
    (hiv : ∀ pf res, (ivL pf res).length < ivalFuel) :
    ∀ fuel i, fmtL.length - i < fuel →
    fmtLoop (devOfLists fmtL szL ivL) szFuel ivalFuel fuel i =
      some (fmtSpec szL ivL (fmtL.drop i)) := by
  intro fuel
  induction fuel with
  | zero => intro i h; omega
  | succ fuel ih =>
    intro i h
    have hdev : (devOfLists fmtL szL ivL).enumFmt i =
        (fmtL.get? i).getD EnumR.invalid := rfl
    rcases hg : fmtL.get? i with _ | r
    · rw [hg] at hdev
      have hdrop : fmtL.drop i = [] :=
        List.drop_eq_nil_of_le (List.get?_eq_none.mp hg)
      rw [hdrop]
      simp only [fmtLoop, hdev, Option.getD_none]
      rfl
    · rw [hg] at hdev
      have hdrop := drop_of_get? _ _ _ hg
      rw [hdrop]
      cases r with
      | invalid =>
        simp only [fmtLoop, hdev, Option.getD_some]
        unfold fmtSpec
        rw [stopper_cons_invalid, okPrefix_cons_invalid]
        rfl
      | ioerr e =>
        simp only [fmtLoop, hdev, Option.getD_some]
        unfold fmtSpec
        rw [stopper_cons_ioerr, okPrefix_cons_ioerr]
        rfl
      | ok f =>
        have hi : i < fmtL.length := by
          by_contra hc
          push_neg at hc
          rw [List.get?_eq_none.mpr hc] at hg
          exact Option.noConfusion hg
        have ihx := ih (i + 1) (by omega)
        have hszx := sizeLoop_spec fmtL szL ivL f.pixelformat ivalFuel
          (hiv f.pixelformat) szFuel 0 (by have := hsz f.pixelformat; omega)
        rw [List.drop_zero] at hszx
        rw [fmtSpec_cons_ok szL ivL f _]
        simp only [fmtLoop, hdev, Option.getD_some, hszx, ihx]
        cases hs1 : sizeSpec ivL f.pixelformat (szL f.pixelformat) with
        | error e => rfl
        | ok ms =>
          cases hcat : fmtSpec szL ivL (fmtL.drop (i + 1)) <;> rfl

/-- Every position gets a `munmap` attempt: the log is `[i, …, i+n-1]`. -/
theorem munmapAll_log (dev : Dev) : ∀ n i, (munmapAll dev n i).2 = List.range' i n := by
  intro n
  induction n with
  | zero => intro i; rfl
  | succ n ih =>
    intro i
    simp only [munmapAll, ih, List.range']

/-- When every `munmap` in range succeeds, the loop reports success. -/
theorem munmapAll_ok (dev : Dev) : ∀ n i, (∀ j, j < n → dev.munmap (i + j) = .ok ()) →
    (munmapAll dev n i).1 = .ok () := by
  intro n
  induction n with
  | zero => intro i _; rfl
  | succ n ih =>
    intro i h
    have h0 : dev.munmap i = .ok () := by
      have := h 0 (Nat.succ_pos n)
      rwa [Nat.add_zero] at this
    have hrest := ih (i + 1) (fun j hj => by
      have hx := h (j + 1) (Nat.succ_lt_succ hj)
      rw [Nat.add_right_comm]
      rwa [← Nat.add_assoc] at hx)
    simp only [munmapAll, h0, hrest]

/-- The loop reports the error of the first failing `munmap`. -/
theorem munmapAll_first_error (dev : Dev) : ∀ n i k e, k < n →
    dev.munmap (i + k) = .error e → (∀ j, j < k → dev.munmap (i + j) = .ok ()) →
    (munmapAll dev n i).1 = .error e := by
  intro n
  induction n with
  | zero => intro i k e hk _ _; omega
  | succ n ih =>
    intro i k e hk hke hj
    cases k with
    | zero =>
      rw [Nat.add_zero] at hke
      simp only [munmapAll, hke]
    | succ k =>
      have h0 : dev.munmap i = .ok () := by
        have := hj 0 (Nat.succ_pos k)
        rwa [Nat.add_zero] at this
      have hrest := ih (i + 1) k e (by omega)
        (by rw [Nat.add_right_comm]; rwa [← Nat.add_assoc] at hke)
        (fun j hjk => by
          have hx := hj (j + 1) (Nat.succ_lt_succ hjk)
          rw [Nat.add_right_comm]
          rwa [← Nat.add_assoc] at hx)
      simp only [munmapAll, h0, hrest]

/-- When mapping fails first at index `k`, the allocation loop stops there
and the accumulator keeps exactly the regions mapped for indices below `k`. -/
theorem allocLoop_stops (dev : Dev) (region : Nat → List Nat) (e : IoError) (k : Nat)
    (hq : ∀ i, i ≤ k → dev.querybuf i = .ok ())
    (hm : ∀ i, i < k → dev.mmap i = .ok (region i))
    (hmk : dev.mmap k = .error e) :
    ∀ fuel j acc, j ≤ k → k < j + fuel →
    allocLoop dev fuel j acc =
      (.error e, acc ++ (List.range' j (k - j)).map region) := by
  intro fuel
  induction fuel with
  | zero => intro j acc hj hk; omega
  | succ fuel ih =>
    intro j acc hj hk
    rcases Nat.eq_or_lt_of_le hj with hjk | hjk
    · subst hjk
      simp only [allocLoop, hq j le_rfl, hmk, Nat.sub_self, List.range',
        List.map_nil, List.append_nil]
    · have hqj : dev.querybuf j = .ok () := hq j (le_of_lt hjk)
      have hmj : dev.mmap j = .ok (region j) := hm j hjk
      have ihx := ih (j + 1) (acc ++ [region j]) hjk (by omega)
      simp only [allocLoop, hqj, hmj, ihx]
      have hr : List.range' j (k - j) = j :: List.range' (j + 1) (k - (j + 1)) := by
        have : k - j = (k - (j + 1)) + 1 := by omega
        rw [this, List.range'_succ]
      rw [hr]
      simp [List.append_assoc]

/-- When every query and mapping in range succeeds, the allocation loop
appends exactly the `n` mapped regions. -/
theorem allocLoop_ok (dev : Dev) (region : Nat → List Nat) (n : Nat)
    (hq : ∀ i, i < n → dev.querybuf i = .ok ())
    (hm : ∀ i, i < n → dev.mmap i = .ok (region i)) :
    ∀ fuel j acc, j + fuel = n →
    allocLoop dev fuel j acc =
      (.ok (), acc ++ (List.range' j fuel).map region) := by
  intro fuel
  induction fuel with
  | zero => intro j acc _; simp [allocLoop, List.range']
  | succ fuel ih =>
    intro j acc hn
    have hqj : dev.querybuf j = .ok () := hq j (by omega)
    have hmj : dev.mmap j = .ok (region j) := hm j (by omega)
    have ihx := ih (j + 1) (acc ++ [region j]) (by omega)
    simp only [allocLoop, hqj, hmj, ihx, List.range'_succ]
    simp [List.append_assoc]

/-- Well-behaved concrete device used to instantiate theorems: it echoes the
default configuration and succeeds on every primitive. -/
def devBase : Dev :=
  { sfmt := .ok { width := 640, height := 480
                , pixelformat := fourcc [0x59, 0x55, 0x59, 0x56], field := 1 }
  , sparm := .ok (1, 10)
  , reqbufs := .ok ()
  , querybuf := fun _ => .ok ()
  , mmap := fun i => .ok [i]
  , qbuf := fun _ => .ok ()
  , streamonIoctl := .ok ()
  , streamoffIoctl := .ok ()
  , munmap := fun _ => .ok ()
  , dqbuf := .ok (0, 1) }

/-- Concrete idle session (a freshly opened camera). -/
def camIdle : Camera := Camera.fresh 3

/-- Concrete streaming session with a two-buffer pool. -/
def camStreaming : Camera :=
  { fd := 3, state := State.Streaming, resolution := (640, 480)
  , format := [0x59, 0x55, 0x59, 0x56], buffers := [[0], [1]] }

/-- Concrete aborted session. -/
def camAborted : Camera :=
  { fd := 3, state := State.Aborted, resolution := (640, 480)
  , format := [0x59, 0x55, 0x59, 0x56], buffers := [] }

/-- C10: `free_buffers` attempts to unmap every buffer in the pool even
after one unmap fails (the attempt log is exactly the positions
`0, …, N-1`), unconditionally clears the pool before returning, and returns
`Ok` when every unmap succeeded, otherwise the error of the first failing
unmap. -/
theorem free_buffers_behavior (dev : Dev) (cam : Camera) :
    (Camera.free_buffers dev cam).2.2 = List.range cam.buffers.length ∧
    (Camera.free_buffers dev cam).2.1 = { cam with buffers := [] } ∧
    ((∀ i, i < cam.buffers.length → dev.munmap i = .ok ()) →
        (Camera.free_buffers dev cam).1 = .ok ()) ∧
    (∀ k e, k < cam.buffers.length → dev.munmap k = .error e →
        (∀ i, i < k → dev.munmap i = .ok ()) →
        (Camera.free_buffers dev cam).1 = .error e) := by
  refine ⟨?_, rfl, ?_, ?_⟩
  · show (munmapAll dev cam.buffers.length 0).2 = _
    rw [munmapAll_log, List.range_eq_range']
  · intro h
    show (munmapAll dev cam.buffers.length 0).1 = _
    exact munmapAll_ok dev _ 0 (fun j hj => by
      have := h j hj
      rwa [Nat.zero_add])
  · intro k e hk hke hok
    show (munmapAll dev cam.buffers.length 0).1 = _
    exact munmapAll_first_error dev _ 0 k e hk (by rwa [Nat.zero_add])
      (fun j hj => by
        have := hok j hj
        rwa [Nat.zero_add])

/-- Witness for C10: in a three-buffer pool whose second unmap fails with
error 7, `free_buffers` reports error 7. -/
theorem free_buffers_behavior_witness :
    (Camera.free_buffers
        { devBase with munmap := fun i => if i = 1 then .error 7 else .ok () }
        { camStreaming with buffers := [[0], [1], [2]] }).1 = .error 7 :=
  (free_buffers_behavior
      { devBase with munmap := fun i => if i = 1 then .error 7 else .ok () }
      { camStreaming with buffers := [[0], [1], [2]] }).2.2.2 1 7
    (by decide) rfl
    (fun i hi => by
      have h0 : i = 0 := by omega
      subst h0
      rfl)

/-- Counterexample to C3: with a streaming session whose stream-off request
fails with error 5, `stop` returns that error but the session's state is
still `Streaming`, not `Aborted` (`try!` returns before the
`self.state = State::Aborted` assignment runs). -/
theorem stop_failure_not_aborted_counterexample :
    (Camera.stop { devBase with streamoffIoctl := .error 5 } camStreaming).2.state
        = State.Streaming
    ∧ (Camera.stop { devBase with streamoffIoctl := .error 5 } camStreaming).1
        = .err 5
    ∧ camStreaming.state = State.Streaming := ⟨rfl, rfl, rfl⟩

/-- C3 (amended): `stop` transitions to `Aborted` only when both the
stream-off request and the buffer unmapping succeed.  If stream-off fails,
the error is returned and the session stays `Streaming` with its pool
intact; if unmapping fails, the error is returned and the pool is cleared
but the session still stays `Streaming`. -/
theorem stop_failure_states (dev : Dev) (cam : Camera)
    (hst : cam.state = State.Streaming) :
    (∀ e, dev.streamoffIoctl = .error e →
        Camera.stop dev cam = (.err e, cam)) ∧
    (∀ e, dev.streamoffIoctl = .ok () →
        (munmapAll dev cam.buffers.length 0).1 = .error e →
        Camera.stop dev cam = (.err e, { cam with buffers := [] })) ∧
    (dev.streamoffIoctl = .ok () →
        (munmapAll dev cam.buffers.length 0).1 = .ok () →
        Camera.stop dev cam =
          (.ok (), { cam with buffers := [], state := State.Aborted })) := by
  refine ⟨?_, ?_, ?_⟩
  · intro e he
    simp only [Camera.stop, hst, ne_eq, not_true_eq_false, if_false,
      Camera.streamoff, he]
  · intro e hoff hm
    simp only [Camera.stop, hst, ne_eq, not_true_eq_false, if_false,
      Camera.streamoff, hoff, Camera.free_buffers, hm]
  · intro hoff hm
    simp only [Camera.stop, hst, ne_eq, not_true_eq_false, if_false,
      Camera.streamoff, hoff, Camera.free_buffers, hm]

/-- Witness for C3's amended theorem: a failing stream-off on a concrete
streaming session returns the error and leaves the session `Streaming`. -/
theorem stop_failure_states_witness :
    Camera.stop { devBase with streamoffIoctl := .error 9 } camStreaming
      = (.err 9, camStreaming) :=
  (stop_failure_states { devBase with streamoffIoctl := .error 9 }
    camStreaming rfl).1 9 rfl

/-- C4: once `stop` has succeeded the session is `Aborted`, and `Aborted` is
terminal: a later `start` or `capture` (and also `stop`) panics on its state
assertion and leaves the record unchanged, and the automatic drop cleanup
does not touch an aborted session, so no operation moves the state away
from `Aborted`. -/
theorem aborted_is_terminal (dev : Dev) (cfg : Config) (cam : Camera) :
    (cam.state = State.Streaming → (Camera.stop dev cam).1 = .ok () →
        (Camera.stop dev cam).2.state = State.Aborted) ∧
    (cam.state = State.Aborted →
        Camera.start dev cfg cam = (.panic, cam, []) ∧
        Camera.capture dev cam = .panic ∧
        Camera.stop dev cam = (.panic, cam) ∧
        Camera.dropCleanup dev cam = cam) := by
  constructor
  · intro hst hok
    simp only [Camera.stop, hst, ne_eq, not_true_eq_false, if_false,
      Camera.streamoff] at hok ⊢
    revert hok
    cases hoff : dev.streamoffIoctl with
    | error e =>
      intro hok
      simp at hok
    | ok u =>
      cases hm : (Camera.free_buffers dev cam).1 with
      | error e =>
        intro hok
        simp at hok
      | ok v =>
        intro _
        rfl
  · intro hab
    refine ⟨?_, ?_, ?_, ?_⟩
    · unfold Camera.start
      rw [hab, if_pos (show State.Aborted ≠ State.Idle from by decide)]
    · unfold Camera.capture
      rw [hab, if_pos (show State.Aborted ≠ State.Streaming from by decide)]
    · unfold Camera.stop
      rw [hab, if_pos (show State.Aborted ≠ State.Streaming from by decide)]
    · unfold Camera.dropCleanup
      rw [hab, if_neg (show ¬State.Aborted = State.Streaming from by decide)]

/-- Witness for C4: on a concrete aborted session every operation panics and
the drop cleanup is a no-op. -/
theorem aborted_is_terminal_witness :
    Camera.start devBase Config.default camAborted = (.panic, camAborted, []) ∧
    Camera.capture devBase camAborted = .panic ∧
    Camera.stop devBase camAborted = (.panic, camAborted) ∧
    Camera.dropCleanup devBase camAborted = camAborted :=
  (aborted_is_terminal devBase Config.default camAborted).2 rfl

/-- C6: calling `start` in any state other than `Idle`, or `capture` or
`stop` in any state other than `Streaming`, is a fatal precondition
violation: the `assert_eq!` panics instead of returning a value. -/
theorem state_precondition_panics (dev : Dev) (cfg : Config) (cam : Camera) :
    (cam.state ≠ State.Idle → Camera.start dev cfg cam = (.panic, cam, [])) ∧
    (cam.state ≠ State.Streaming → Camera.capture dev cam = .panic) ∧
    (cam.state ≠ State.Streaming → Camera.stop dev cam = (.panic, cam)) := by
  refine ⟨?_, ?_, ?_⟩
  · intro h
    unfold Camera.start
    rw [if_pos h]
  · intro h
    unfold Camera.capture
    rw [if_pos h]
  · intro h
    unfold Camera.stop
    rw [if_pos h]

/-- Witness for C6: a streaming session panics on `start`, and an idle
session panics on `capture` and on `stop`. -/
theorem state_precondition_panics_witness :
    Camera.start devBase Config.default camStreaming = (.panic, camStreaming, []) ∧
    Camera.capture devBase camIdle = .panic ∧
    Camera.stop devBase camIdle = (.panic, camIdle) :=
  ⟨(state_precondition_panics devBase Config.default camStreaming).1 (by decide),
   (state_precondition_panics devBase Config.default camIdle).2.1 (by decide),
   (state_precondition_panics devBase Config.default camIdle).2.2 (by decide)⟩

/-- C1: for every configuration (with a well-formed 4-byte format request,
from an idle session with an empty pool), when the device's `S_FMT` reply
reports a different resolution `start` returns `BadResolution`; when the
resolution matches but the reply's pixel-format code differs from the
requested fourcc, `start` returns `BadFormat`; when both match but the
reply's field mode differs, `start` returns `BadField`.  In each case the
session record is returned unchanged, so the state is still `Idle` and the
pool holds zero buffers (these mismatch checks run in this priority order;
`BadResolution` wins when several components differ). -/
theorem start_bad_negotiation_errors (dev : Dev) (cfg : Config) (cam : Camera)
    (hst : cam.state = State.Idle) (hbuf : cam.buffers = [])
    (hlen : cfg.format.length = 4) (r : FmtReply) (hr : dev.sfmt = .ok r) :
    ((r.width, r.height) ≠ cfg.resolution →
      Camera.start dev cfg cam = (.err Error.BadResolution, cam, [])
        ∧ cam.state = State.Idle ∧ cam.buffers = []) ∧
    ((r.width, r.height) = cfg.resolution → fourcc cfg.format ≠ r.pixelformat →
      Camera.start dev cfg cam = (.err Error.BadFormat, cam, [])
        ∧ cam.state = State.Idle ∧ cam.buffers = []) ∧
    ((r.width, r.height) = cfg.resolution → fourcc cfg.format = r.pixelformat →
      cfg.field.toNat ≠ r.field →
      Camera.start dev cfg cam = (.err Error.BadField, cam, [])
        ∧ cam.state = State.Idle ∧ cam.buffers = []) := by
  have hnlen : ¬(cfg.format.length ≠ 4) := by omega
  have hnst : ¬(cam.state ≠ State.Idle) := by
    rw [hst]
    exact fun hc => hc rfl
  refine ⟨?_, ?_, ?_⟩
  · intro h1
    have ht : Camera.tune_format dev cfg.resolution cfg.format cfg.field
        = .error Error.BadResolution := by
      unfold Camera.tune_format
      rw [if_neg hnlen]
      simp only [hr]
      rw [if_pos h1]
    refine ⟨?_, hst, hbuf⟩
    unfold Camera.start
    rw [if_neg hnst]
    simp only [ht]
  · intro h1 h2
    have ht : Camera.tune_format dev cfg.resolution cfg.format cfg.field
        = .error Error.BadFormat := by
      unfold Camera.tune_format
      rw [if_neg hnlen]
      simp only [hr]
      rw [if_neg (by simp [h1]), if_pos h2]
    refine ⟨?_, hst, hbuf⟩
    unfold Camera.start
    rw [if_neg hnst]
    simp only [ht]
  · intro h1 h2 h3
    have ht : Camera.tune_format dev cfg.resolution cfg.format cfg.field
        = .error Error.BadField := by
      unfold Camera.tune_format
      rw [if_neg hnlen]
      simp only [hr]
      rw [if_neg (by simp [h1]), if_neg (by simp [h2]), if_pos h3]
    refine ⟨?_, hst, hbuf⟩
    unfold Camera.start
    rw [if_neg hnst]
    simp only [ht]

/-- Reply of a device that adjusts the requested resolution to 1280x720. -/
def replyHalfHD : FmtReply :=
  { width := 1280, height := 720
  , pixelformat := fourcc [0x59, 0x55, 0x59, 0x56], field := 1 }

/-- Device that adjusts the requested resolution down to 1280x720. -/
def devHalfHD : Dev := { devBase with sfmt := .ok replyHalfHD }

/-- Witness for C1: the spec's own scenario — requesting (1920,1080) from a
device that answers (1280,720) makes `start` fail with `BadResolution`,
leaving the fresh session idle with an empty pool. -/
theorem start_bad_negotiation_errors_witness :
    Camera.start devHalfHD { Config.default with resolution := (1920, 1080) }
        camIdle = (.err Error.BadResolution, camIdle, [])
    ∧ camIdle.state = State.Idle ∧ camIdle.buffers = [] :=
  (start_bad_negotiation_errors devHalfHD
      { Config.default with resolution := (1920, 1080) } camIdle
      rfl rfl rfl _ rfl).1 (by decide)

/-- Counterexample to C2: for the requested interval (0,0) and device reply
(1,1) the claim's success conditions hold — the returned numerator and
denominator are nonzero and the cross products agree (0·1 = 0·1) — yet
`tune_stream` returns `BadInterval`, because the source's zero test is on
the cross products `returned·requested` (here 1·0 = 0), not on the returned
components. -/
theorem tune_stream_zero_counterexample :
    Camera.tune_stream { devBase with sparm := .ok (1, 1) } (0, 0)
        = .error Error.BadInterval
    ∧ (1 : Nat) ≠ 0 ∧ (1 : Nat) ≠ 0 ∧ (0 : Nat) * 1 = (0 : Nat) * 1 :=
  ⟨rfl, by decide, by decide, rfl⟩

/-- C2 (amended): for requested interval (n,d) and device reply (n',d'),
the negotiation succeeds exactly when both wrapped cross products
`n'·d mod 2^32` and `d'·n mod 2^32` are nonzero and equal; in every other
case it fails with `BadInterval` (the zero test is on the cross products
rather than the reply's components, and the `u32` products wrap). -/
theorem tune_stream_characterized (dev : Dev) (n d n' d' : Nat)
    (h : dev.sparm = .ok (n', d')) :
    (Camera.tune_stream dev (n, d) = .ok () ↔
      (n' * d) % 2 ^ 32 ≠ 0 ∧ (d' * n) % 2 ^ 32 ≠ 0 ∧
      (n' * d) % 2 ^ 32 = (d' * n) % 2 ^ 32) ∧
    (Camera.tune_stream dev (n, d) = .ok () ∨
      Camera.tune_stream dev (n, d) = .error Error.BadInterval) := by
  have hpow : (2 : Nat) ^ 32 = 4294967296 := by norm_num
  unfold Camera.tune_stream
  rw [h, hpow]
  simp only [u32]
  by_cases h0 : n' * d % 4294967296 = 0 ∨ d' * n % 4294967296 = 0
  · rw [if_pos h0]
    constructor
    · constructor
      · intro hc
        exact absurd hc (by simp)
      · intro ⟨ha, hb, _⟩
        exact absurd h0 (by simp [ha, hb])
    · exact Or.inr rfl
  · rw [if_neg h0]
    push_neg at h0
    by_cases h1 : n' * d % 4294967296 ≠ d' * n % 4294967296
    · rw [if_pos h1]
      constructor
      · constructor
        · intro hc
          exact absurd hc (by simp)
        · intro ⟨_, _, heq⟩
          exact absurd heq h1
      · exact Or.inr rfl
    · rw [if_neg h1]
      push_neg at h1
      exact ⟨⟨fun _ => ⟨h0.1, h0.2, h1⟩, fun _ => rfl⟩, Or.inl rfl⟩

/-- Witness for C2's amended theorem: for the echoed default interval
(1,10) the negotiation succeeds (both cross products are 10). -/
theorem tune_stream_characterized_witness :
    (Camera.tune_stream devBase (1, 10) = .ok () ↔
      (1 * 10) % 2 ^ 32 ≠ 0 ∧ (10 * 1) % 2 ^ 32 ≠ 0 ∧
      (1 * 10) % 2 ^ 32 = (10 * 1) % 2 ^ 32) ∧
    (Camera.tune_stream devBase (1, 10) = .ok () ∨
      Camera.tune_stream devBase (1, 10) = .error Error.BadInterval) :=
  tune_stream_characterized devBase 1 10 1 10 rfl

/-- C5: when `start` reaches the stream-on step with a successfully
negotiated format, interval and pool, and stream-on fails with error `e`,
then `start` runs the buffer cleanup — a `munmap` attempt is logged for
every pool position (`0, …, N-1`) and the pool is emptied — and returns the
`Io` variant carrying `e`, whatever kind of I/O error `e` was and whichever
sub-step (a `QBUF` or the `STREAMON` ioctl itself) produced it. -/
theorem start_streamon_failure_cleanup (dev : Dev) (cfg : Config)
    (cam cam' : Camera) (hst : cam.state = State.Idle)
    (h1 : Camera.tune_format dev cfg.resolution cfg.format cfg.field = .ok ())
    (h2 : Camera.tune_stream dev cfg.interval = .ok ())
    (h3 : Camera.alloc_buffers dev cfg.nbuffers cam = (.ok (), cam'))
    (e : IoError) (h4 : Camera.streamon dev cam' = .error e) :
    Camera.start dev cfg cam =
      (.err (Error.Io e), { cam' with buffers := [] },
        List.range cam'.buffers.length) := by
  have hnst : ¬(cam.state ≠ State.Idle) := by
    rw [hst]
    exact fun hc => hc rfl
  unfold Camera.start
  rw [if_neg hnst]
  simp only [h1, h2, h3, h4]
  unfold Camera.free_buffers
  rw [munmapAll_log, List.range_eq_range']

/-- Witness for C5: with the default configuration and a device whose
`STREAMON` ioctl fails with error 3, `start` returns `Io 3`, empties the
two-buffer pool it had mapped, and logs unmap attempts at positions 0
and 1. -/
theorem start_streamon_failure_cleanup_witness :
    Camera.start { devBase with streamonIoctl := .error 3 } Config.default camIdle =
      (.err (Error.Io 3), { camIdle with buffers := [] }, List.range 2) :=
  start_streamon_failure_cleanup { devBase with streamonIoctl := .error 3 }
    Config.default camIdle { camIdle with buffers := [[0], [1]] }
    rfl rfl rfl rfl 3 rfl

/-- Behavior of `capture` on a streaming session with an in-range dequeued
index and a used-byte count within the mapped region. -/
theorem capture_window (dev : Dev) (cam : Camera)
    (hst : cam.state = State.Streaming) (idx used : Nat)
    (hdq : dev.dqbuf = .ok (idx, used)) (hidx : idx < cam.buffers.length)
    (hused : used ≤ (cam.buffers.getD idx []).length) :
    Camera.capture dev cam =
      .ok { data := (cam.buffers.getD idx []).take used
          , resolution := cam.resolution
          , format := cam.format
          , index := idx
          , bytesused := used } := by
  have hnst : ¬(cam.state ≠ State.Streaming) := by
    rw [hst]
    exact fun hc => hc rfl
  unfold Camera.capture
  rw [if_neg hnst]
  simp only [hdq]
  rw [if_pos hidx, if_pos hused]

/-- C7: a successful `start` records the configuration's resolution and the
four bytes of its format in the session and moves it to `Streaming`; a
successful `capture` on that session then returns a frame whose data window
is exactly the first `bytesused` bytes of the pool entry at the dequeued
index, and whose resolution and format equal the recorded ones. -/
theorem capture_frame_window (dev : Dev) (cfg : Config) (cam cam' : Camera)
    (hst : cam.state = State.Idle)
    (h1 : Camera.tune_format dev cfg.resolution cfg.format cfg.field = .ok ())
    (h2 : Camera.tune_stream dev cfg.interval = .ok ())
    (h3 : Camera.alloc_buffers dev cfg.nbuffers cam = (.ok (), cam'))
    (h4 : Camera.streamon dev cam' = .ok ())
    (idx used : Nat) (hdq : dev.dqbuf = .ok (idx, used))
    (hidx : idx < cam'.buffers.length)
    (hused : used ≤ (cam'.buffers.getD idx []).length) :
    Camera.start dev cfg cam =
      (.ok (), { cam' with
          resolution := cfg.resolution
        , format := [cfg.format.getD 0 0, cfg.format.getD 1 0,
                     cfg.format.getD 2 0, cfg.format.getD 3 0]
        , state := State.Streaming }, []) ∧
    Camera.capture dev { cam' with
          resolution := cfg.resolution
        , format := [cfg.format.getD 0 0, cfg.format.getD 1 0,
                     cfg.format.getD 2 0, cfg.format.getD 3 0]
        , state := State.Streaming } =
      .ok { data := (cam'.buffers.getD idx []).take used
          , resolution := cfg.resolution
          , format := [cfg.format.getD 0 0, cfg.format.getD 1 0,
                       cfg.format.getD 2 0, cfg.format.getD 3 0]
          , index := idx
          , bytesused := used } := by
  have hnst : ¬(cam.state ≠ State.Idle) := by
    rw [hst]
    exact fun hc => hc rfl
  constructor
  · unfold Camera.start
    rw [if_neg hnst]
    simp only [h1, h2, h3, h4]
  · exact capture_window dev _ rfl idx used hdq hidx hused

/-- Witness for C7: a full default-configuration run against the echoing
device: `start` succeeds, and `capture` returns the one used byte of the
dequeued buffer 0 with the recorded resolution (640,480) and format
"YUYV". -/
theorem capture_frame_window_witness :
    Camera.start devBase Config.default camIdle =
      (.ok (), { { camIdle with buffers := [[0], [1]] } with
          resolution := Config.default.resolution
        , format := [Config.default.format.getD 0 0, Config.default.format.getD 1 0,
                     Config.default.format.getD 2 0, Config.default.format.getD 3 0]
        , state := State.Streaming }, []) ∧
    Camera.capture devBase { { camIdle with buffers := [[0], [1]] } with
          resolution := Config.default.resolution
        , format := [Config.default.format.getD 0 0, Config.default.format.getD 1 0,
                     Config.default.format.getD 2 0, Config.default.format.getD 3 0]
        , state := State.Streaming } =
      .ok { data := ({ camIdle with buffers := [[0], [1]] }.buffers.getD 0 []).take 1
          , resolution := Config.default.resolution
          , format := [Config.default.format.getD 0 0, Config.default.format.getD 1 0,
                       Config.default.format.getD 2 0, Config.default.format.getD 3 0]
          , index := 0
          , bytesused := 1 } :=
  capture_frame_window devBase Config.default camIdle
    { camIdle with buffers := [[0], [1]] } rfl rfl rfl rfl rfl 0 1 rfl
    (by decide) (by decide)

/-- C9: when during `start`'s allocation step the first `k` buffers
(0 < k < N) query and map successfully but mapping buffer `k` fails with
error `e`, the regions already mapped for indices `0..k-1` stay collected
in the session's pool (nothing is unmapped or removed — no cleanup log is
produced), the error propagates to the caller as `Io e`, and the session's
state is still `Idle`. -/
theorem alloc_partial_failure_keeps_mapped (dev : Dev) (cfg : Config)
    (cam : Camera) (region : Nat → List Nat) (k : Nat) (e : IoError)
    (hst : cam.state = State.Idle) (hbuf : cam.buffers = [])
    (h1 : Camera.tune_format dev cfg.resolution cfg.format cfg.field = .ok ())
    (h2 : Camera.tune_stream dev cfg.interval = .ok ())
    (hreq : dev.reqbufs = .ok ())
    (hq : ∀ i, i ≤ k → dev.querybuf i = .ok ())
    (hm : ∀ i, i < k → dev.mmap i = .ok (region i))
    (hmk : dev.mmap k = .error e)
    (hk0 : 0 < k) (hkN : k < cfg.nbuffers) :
    Camera.start dev cfg cam =
      (.err (Error.Io e), { cam with buffers := (List.range k).map region }, [])
    ∧ ({ cam with buffers := (List.range k).map region }).state = State.Idle := by
  have hnst : ¬(cam.state ≠ State.Idle) := by
    rw [hst]
    exact fun hc => hc rfl
  have halloc : Camera.alloc_buffers dev cfg.nbuffers cam =
      (.error (Error.Io e), { cam with buffers := (List.range k).map region }) := by
    unfold Camera.alloc_buffers
    simp only [hreq]
    rw [allocLoop_stops dev region e k hq hm hmk cfg.nbuffers 0 cam.buffers
      (by omega) (by omega)]
    rw [hbuf, Nat.sub_zero, List.nil_append, List.range_eq_range']
  constructor
  · unfold Camera.start
    rw [if_neg hnst]
    simp only [h1, h2, halloc]
  · rw [hst]

/-- Device whose third mapping fails with error 11. -/
def devMapFail : Dev :=
  { devBase with mmap := fun i => if i = 2 then .error 11 else .ok [i] }

/-- Witness for C9: requesting three buffers from a device whose third
mapping fails leaves the two already-mapped regions in the pool, with the
session still idle and `start` returning `Io 11`. -/
theorem alloc_partial_failure_keeps_mapped_witness :
    Camera.start devMapFail { Config.default with nbuffers := 3 } camIdle =
      (.err (Error.Io 11),
        { camIdle with buffers := (List.range 2).map fun i => [i] }, [])
    ∧ ({ camIdle with buffers := (List.range 2).map fun i => [i] }).state
        = State.Idle :=
  alloc_partial_failure_keeps_mapped devMapFail
    { Config.default with nbuffers := 3 } camIdle (fun i => [i]) 2 11
    rfl rfl rfl rfl rfl
    (fun i hi => rfl)
    (fun i hi => by
      interval_cases i <;> rfl)
    rfl (by decide) (by decide)

/-- C8: `formats()` computes, for any device described by response lists,
exactly the reference catalog `fmtSpec`: formats are enumerated by
increasing index until the first index rejection (`okPrefix`/`stopper`),
each format keeps only its discrete size entries (non-discrete ones are
skipped while the index still advances), each mode keeps only the discrete
interval entries, everything in enumeration order; any response that is an
I/O failure rather than an index rejection makes the whole call return that
error.  The call reads only the device — its result is the same whatever
session record it is invoked on. -/
theorem formats_enumeration (cam cam' : Camera) (fmtL : List (EnumR FmtDesc))
    (szL : Nat → List (EnumR SizeDesc))
    (ivL : Nat → Nat × Nat → List (EnumR IvalDesc)) (fuel : Nat)
    (hf : fmtL.length < fuel) (hs : ∀ pf, (szL pf).length < fuel)
    (hi : ∀ pf res, (ivL pf res).length < fuel) :
    Camera.formats cam (devOfLists fmtL szL ivL) fuel
        = some (fmtSpec szL ivL fmtL)
    ∧ Camera.formats cam (devOfLists fmtL szL ivL) fuel
        = Camera.formats cam' (devOfLists fmtL szL ivL) fuel := by
  constructor
  · have hx := fmtLoop_spec fmtL szL ivL fuel fuel hs hi fuel 0 (by omega)
    rw [List.drop_zero] at hx
    exact hx
  · rfl

/-- Response lists of the spec's catalog scenario: one YUYV format with one
discrete 640x480 mode carrying the single discrete interval (1,30). -/
def fmtL1 : List (EnumR FmtDesc) :=
  [.ok { pixelformat := fourcc [0x59, 0x55, 0x59, 0x56]
       , description := [89, 85, 86, 32, 52, 58, 50, 58, 50, 0]
       , flags := 0 }]

/-- Size responses for the catalog scenario (one discrete 640x480 entry). -/
def szL1 : Nat → List (EnumR SizeDesc) :=
  fun _ => [.ok { ftype := 1, width := 640, height := 480 }]

/-- Interval responses for the catalog scenario (one discrete (1,30)). -/
def ivL1 : Nat → Nat × Nat → List (EnumR IvalDesc) :=
  fun _ _ => [.ok { ftype := 1, numerator := 1, denominator := 30 }]

/-- Witness for C8: the scenario device's catalog is computed within fuel 2
and is independent of the session record. -/
theorem formats_enumeration_witness :
    Camera.formats camIdle (devOfLists fmtL1 szL1 ivL1) 2
        = some (fmtSpec szL1 ivL1 fmtL1)
    ∧ Camera.formats camIdle (devOfLists fmtL1 szL1 ivL1) 2
        = Camera.formats camStreaming (devOfLists fmtL1 szL1 ivL1) 2 :=
  formats_enumeration camIdle camStreaming fmtL1 szL1 ivL1 2
    (by decide) (fun _ => Nat.one_lt_two) (fun _ _ => Nat.one_lt_two)

end Rscam
